import Mathlib

/-!
Verification of the Envoy cluster-manager core against its specification.

Each namespace below is a shallow embedding of one component of the
repository:

* `Opts`       — command-line option parsing (`source/server/options_impl.cc`).
* `Validation` — the config-validation entry point
                 (`source/server/config_validation/server.cc` / `server.h`).
* `FsSub`      — the filesystem subscription
                 (`source/common/config/filesystem_subscription_impl.h`).
* `Registry`   — the cluster-manager primary registry (add/update/remove).
* `Tls`        — the thread-local cluster view and pool lookups.
* `Drain`      — cluster removal and connection-pool drain orchestration.
* `InitHelper` — the cluster-manager init helper state machine.

The cluster-manager implementation itself is not part of this source
tree (only its tests are), so `Registry`, `Tls`, `Drain` and
`InitHelper` are modelled from the specification's description of those
components, as indicated on each definition.
-/

namespace Opts

/-- Two to the sixty-fourth power: the modulus of C++ `uint64_t` arithmetic. -/
def UINT64_MOD : Nat := 2 ^ 64

/-- From `source/server/options_impl.cc`: the `--base-id` flag is a
`uint64_t` with default value `0`; the constructor stores
`base_id_ = base_id.getValue() * 10` where the multiplication is done in
`uint64_t` (wrapping) arithmetic.  `flag = none` models an absent flag
(TCLAP then supplies the default `0`). -/
def storedBaseId (flag : Option Nat) : Nat :=
  ((flag.getD 0) * 10) % UINT64_MOD

end Opts

namespace Validation

/-- Exceptions are carried as their message text. -/
def EnvoyException : Type := String

/-- The outcome of every step of `ValidationInstance::initialize` that can
throw an `EnvoyException` (config file loading, bootstrap loading, runtime
creation, main-config initialization), collapsed into a single result as the
constructor observes it. From `source/server/config_validation/server.cc`. -/
structure ValidationEnv where
  initializeResult : Except EnvoyException Unit

/-- The constructed validation server.  From
`source/server/config_validation/server.h`. -/
structure ValidationInstance where
  initialized : Bool

/-- From `source/server/config_validation/server.cc`: the
`ValidationInstance` constructor runs `initialize`; on `EnvoyException` it
logs, shuts down the thread-local slot, and rethrows. -/
def ValidationInstance.construct (env : ValidationEnv) :
    Except EnvoyException ValidationInstance :=
  match env.initializeResult with
  | .ok _ => .ok { initialized := true }
  | .error e => .error e

/-- From `source/server/config_validation/server.h`
(`createListenSocket`): returned sockets are not used, so the validation
instance returns nothing rather than a socket; `Option Nat` stands for a
nullable socket handle. -/
def ValidationInstance.createListenSocket (_inst : ValidationInstance) :
    Option Nat :=
  none

/-- From `source/server/config_validation/server.h` (`createWorker`):
returned workers are not used, so the validation instance returns nothing
rather than a worker. -/
def ValidationInstance.createWorker (_inst : ValidationInstance) :
    Option Nat :=
  none

/-- Modelled from the spec: the validation factory's `createDnsResolver`
returns null (the implementation file `server/config_validation/dns.h` is
not part of this source tree). -/
def ValidationInstance.createDnsResolver (_inst : ValidationInstance) :
    Option Nat :=
  none

/-- From `source/server/config_validation/server.cc`: `validateConfig`
constructs a `ValidationInstance`, prints a success message and shuts it
down, returning `true`; any `EnvoyException` is caught and `false` is
returned. -/
def validateConfig (env : ValidationEnv) : Bool :=
  match ValidationInstance.construct env with
  | .ok _server => true
  | .error _ => false

end Validation

namespace FsSub

/-- Exceptions are carried as their message text. -/
abbrev EnvoyException : Type := String

/-- A resource parsed out of the watched file (opaque payload). -/
abbrev Resource : Type := String

/-- The `DiscoveryResponse`-shaped document read from the file (opaque
payload). -/
abbrev DiscoveryResponse : Type := String

/-- The stat counters of a subscription
(`update_attempt`, `update_success`, `update_rejected`, `update_failure`). -/
structure SubscriptionStats where
  update_attempt : Nat
  update_success : Nat
  update_rejected : Nat
  update_failure : Nat
  deriving Repr, DecidableEq

/-- Everything observable that `refresh` does through its callbacks. -/
inductive CallbackEvent where
  | onConfigUpdate (resources : List Resource)
  | onConfigUpdateFailed (e : EnvoyException)
  deriving DecidableEq

/-- The outcomes of the three steps of `refresh` that can throw an
`EnvoyException`: loading the file, extracting the typed resources, and the
consumer's `onConfigUpdate`. -/
structure RefreshEnv where
  loadFromFile : Except EnvoyException DiscoveryResponse
  getTypedResources : DiscoveryResponse → Except EnvoyException (List Resource)
  onConfigUpdate : List Resource → Except EnvoyException Unit

/-- From `source/common/config/filesystem_subscription_impl.h`
(`FilesystemSubscriptionImpl::refresh`): increment `update_attempt`, then
inside a try block load the file, extract the typed resources, set the
local boolean `config_update_available`, call `onConfigUpdate` and
increment `update_success`.  An `EnvoyException` thrown anywhere in the
block is caught; it increments `update_rejected` if
`config_update_available` was already set (i.e. the resources had been
extracted) and `update_failure` otherwise, and in both cases
`onConfigUpdateFailed` is invoked with the error.  The function returns the
new counters plus the list of callback invocations it performed, in order. -/
def refresh (env : RefreshEnv) (stats : SubscriptionStats) :
    SubscriptionStats × List CallbackEvent :=
  let stats1 := { stats with update_attempt := stats.update_attempt + 1 }
  match env.loadFromFile with
  | .error e =>
      ({ stats1 with update_failure := stats1.update_failure + 1 },
       [.onConfigUpdateFailed e])
  | .ok message =>
      match env.getTypedResources message with
      | .error e =>
          ({ stats1 with update_failure := stats1.update_failure + 1 },
           [.onConfigUpdateFailed e])
      | .ok typed_resources =>
          match env.onConfigUpdate typed_resources with
          | .error e =>
              ({ stats1 with update_rejected := stats1.update_rejected + 1 },
               [.onConfigUpdate typed_resources, .onConfigUpdateFailed e])
          | .ok _ =>
              ({ stats1 with update_success := stats1.update_success + 1 },
               [.onConfigUpdate typed_resources])

/-- Everything observable that `start` does besides running `refresh`:
storing the callbacks and installing the moved-to watch on the path. -/
inductive StartAction where
  | storeCallbacks
  | addWatch (path : String) (event : String)
  deriving DecidableEq

/-- The mutable state of a `FilesystemSubscriptionImpl`. -/
structure FsSubState where
  path : String
  callbacksSet : Bool
  stats : SubscriptionStats

/-- From `source/common/config/filesystem_subscription_impl.h`
(`FilesystemSubscriptionImpl::start`): the `resources` parameter is
explicitly unreferenced; the callbacks are stored, a `MovedTo` watch is
installed on the configured path, and an immediate `refresh` is attempted. -/
def start (env : RefreshEnv) (st : FsSubState) (resources : List String) :
    FsSubState × List StartAction × List CallbackEvent :=
  let _ := resources
  let st1 := { st with callbacksSet := true }
  let r := refresh env st1.stats
  ({ st1 with stats := r.1 },
   [.storeCallbacks, .addWatch st1.path "MovedTo"],
   r.2)

/-- From `source/common/config/filesystem_subscription_impl.h`
(`FilesystemSubscriptionImpl::updateResources`): the `resources` parameter
is explicitly unreferenced and nothing is done. -/
def updateResources (st : FsSubState) (resources : List String) : FsSubState :=
  let _ := resources
  st

end FsSub

namespace Registry

/-- A cluster definition: a unique name plus the remaining declarative
fields (discovery type, timeouts, hosts, ...), abstracted into one payload
value since the registry only compares them through the definition hash. -/
structure ClusterDef where
  name : String
  config : Nat
  deriving Repr, DecidableEq

/-- The `loader_version_hash` of a definition.  Equal definitions hash
equally; the model uses the definition itself as its own (collision-free)
hash value. -/
def ClusterDef.hashOf (d : ClusterDef) : String × Nat :=
  (d.name, d.config)

/-- A primary registry entry: the stored definition hash and the
`addedViaApi` flag (`false` for statically configured clusters). -/
structure Entry where
  hash : String × Nat
  addedViaApi : Bool
  deriving Repr, DecidableEq

/-- The cluster-manager primary registry with its stats counters and a
count of cluster-factory invocations (each constructed cluster entity is
one factory call). -/
structure CM where
  registry : List (String × Entry)
  cluster_added : Nat
  cluster_modified : Nat
  cluster_removed : Nat
  factoryCalls : Nat
  deriving Repr, DecidableEq

/-- Look a name up in an association list of registry entries. -/
def lookup : List (String × Entry) → String → Option Entry
  | [], _ => none
  | (k, v) :: rest, name => if k = name then some v else lookup rest name

/-- Replace the entry stored under `name`. -/
def setEntry : List (String × Entry) → String → Entry → List (String × Entry)
  | [], _, _ => []
  | (k, v) :: rest, name, e =>
      if k = name then (k, e) :: rest else (k, v) :: setEntry rest name e

/-- Drop every entry stored under `name`. -/
def eraseEntry (l : List (String × Entry)) (name : String) :
    List (String × Entry) :=
  l.filter (fun kv => kv.1 ≠ name)

/-- Modelled from the spec (§4.4, the cluster-manager implementation is
not in this source tree): `addOrUpdatePrimaryCluster(definition)` returns
`true` if anything changed and `false` otherwise.  A name collision with a
static (non-API) cluster is rejected; an existing API cluster with an
identical hash makes the call a no-op returning `false`; otherwise a new
cluster entity is built by the factory and swapped in, bumping the
`cluster_added` or `cluster_modified` counter. -/
def addOrUpdatePrimaryCluster (st : CM) (d : ClusterDef) : Bool × CM :=
  match lookup st.registry d.name with
  | some e =>
      if e.addedViaApi = false then
        (false, st)
      else if e.hash = d.hashOf then
        (false, st)
      else
        (true, { st with
                   registry := setEntry st.registry d.name
                     { hash := d.hashOf, addedViaApi := true },
                   cluster_modified := st.cluster_modified + 1,
                   factoryCalls := st.factoryCalls + 1 })
  | none =>
      (true, { st with
                 registry := (d.name, { hash := d.hashOf, addedViaApi := true })
                   :: st.registry,
                 cluster_added := st.cluster_added + 1,
                 factoryCalls := st.factoryCalls + 1 })

/-- Modelled from the spec (§4.4): `removePrimaryCluster(name)` returns
`false` if the name is unknown or belongs to a static cluster; otherwise
the cluster is removed and `cluster_removed` is bumped. -/
def removePrimaryCluster (st : CM) (name : String) : Bool × CM :=
  match lookup st.registry name with
  | none => (false, st)
  | some e =>
      if e.addedViaApi = false then
        (false, st)
      else
        (true, { st with
                   registry := eraseEntry st.registry name,
                   cluster_removed := st.cluster_removed + 1 })

/-- The `cluster_manager.total_clusters` gauge: the registry size. -/
def totalClusters (st : CM) : Nat :=
  st.registry.length

end Registry

namespace Tls

/-- Exceptions are carried as their message text. -/
abbrev EnvoyException : Type := String

/-- Connection-pool resource priority. -/
inductive Prio where
  | default
  | high
  deriving Repr, DecidableEq

/-- The per-worker view of one cluster: the healthy hosts of its current
host-set snapshot (in load-balancer preference order) and the cached
connection pools keyed by host and priority. -/
structure TEntry where
  healthyHosts : List String
  pools : List ((String × Prio) × Nat)
  deriving Repr, DecidableEq

/-- A worker's thread-local cluster view with the per-cluster
`cluster.<name>.upstream_cx_none_healthy` counters and a source of fresh
pool ids. -/
structure TState where
  clusters : List (String × TEntry)
  cx_none_healthy : List (String × Nat)
  nextPool : Nat
  deriving Repr, DecidableEq

/-- Look a cluster name up in the thread-local view. -/
def getCluster : List (String × TEntry) → String → Option TEntry
  | [], _ => none
  | (k, v) :: rest, name => if k = name then some v else getCluster rest name

/-- Modelled from the spec (§4.4): `get(name)` returns the thread-local
view for the current worker, null if absent. -/
def get (st : TState) (name : String) : Option TEntry :=
  getCluster st.clusters name

/-- Read a per-cluster `upstream_cx_none_healthy` counter (0 if never
touched). -/
def noneHealthy (st : TState) (name : String) : Nat :=
  match st.cx_none_healthy.lookup name with
  | some n => n
  | none => 0

/-- Increment a per-cluster `upstream_cx_none_healthy` counter. -/
def bumpNoneHealthy (st : TState) (name : String) : TState :=
  { st with cx_none_healthy :=
      (name, noneHealthy st name + 1)
        :: st.cx_none_healthy.filter (fun kv => kv.1 ≠ name) }

/-- Store a replacement entry for `name` in the view. -/
def putCluster (l : List (String × TEntry)) (name : String) (e : TEntry) :
    List (String × TEntry) :=
  (name, e) :: l.filter (fun kv => kv.1 ≠ name)

/-- Look up a cached pool. -/
def findPool (e : TEntry) (host : String) (prio : Prio) : Option Nat :=
  (e.pools.lookup (host, prio))

/-- Modelled from the spec (§4.4): `httpConnPoolForCluster` looks the
cluster up in the per-worker view (null if absent), selects a host via the
cluster's load balancer (modelled as the first healthy host of the
snapshot), and either returns the cached pool for `(host, priority)` or
allocates and caches one.  If no healthy host exists it returns null and
increments `cluster.<name>.upstream_cx_none_healthy`. -/
def httpConnPoolForCluster (st : TState) (name : String) (prio : Prio) :
    Option Nat × TState :=
  match get st name with
  | none => (none, st)
  | some entry =>
      match entry.healthyHosts with
      | [] => (none, bumpNoneHealthy st name)
      | host :: _ =>
          match findPool entry host prio with
          | some p => (some p, st)
          | none =>
              let p := st.nextPool
              let entry1 := { entry with pools := ((host, prio), p) :: entry.pools }
              (some p,
               { st with
                   clusters := putCluster st.clusters name entry1,
                   nextPool := st.nextPool + 1 })

/-- The `{connection, host}` result of `tcpConnForCluster`; both parts are
nullable. -/
structure ConnData where
  connection : Option Nat
  host : Option String
  deriving Repr, DecidableEq

/-- Modelled from the spec (§4.4, §7): `tcpConnForCluster` throws the
generic cluster-unknown error when the cluster is not present (the one
caller-bug case); with no healthy host it returns a result whose
connection is null without throwing, counting the failed lookup in
`upstream_cx_none_healthy` (the repository's `DynamicHostRemove` test pins
the counter to 2 after one failed HTTP and one failed TCP lookup);
otherwise it returns a fresh connection to the chosen host. -/
def tcpConnForCluster (st : TState) (name : String) :
    Except EnvoyException (ConnData × TState) :=
  match get st name with
  | none => .error ("unknown cluster " ++ name)
  | some entry =>
      match entry.healthyHosts with
      | [] => .ok ({ connection := none, host := none }, bumpNoneHealthy st name)
      | host :: _ =>
          .ok ({ connection := some st.nextPool, host := some host },
               { st with nextPool := st.nextPool + 1 })

/-- Modelled from the spec (§4.4, §7): `httpAsyncClientForCluster` requires
the cluster to exist and throws the cluster-unknown error otherwise;
`Nat` stands for the async-client handle. -/
def httpAsyncClientForCluster (st : TState) (name : String) :
    Except EnvoyException Nat :=
  match get st name with
  | none => .error ("unknown cluster " ++ name)
  | some _ => .ok 0

end Tls

namespace Drain

/-- The per-worker state a removal touches: for each cluster name the list
of connection-pool ids the worker currently holds for it. -/
structure Worker where
  view : List (String × List Nat)
  deriving Repr, DecidableEq

/-- The observable actions a removal performs, in order. -/
inductive DEv where
  | removedFromView (worker : Nat) (cluster : String)
  | drainCbRegistered (worker : Nat) (pool : Nat)
  deriving Repr, DecidableEq

/-- Cluster-manager state for removal: the primary registry (name →
`addedViaApi`), the per-worker views, and the set of pools whose
`addDrainedCallback` has been invoked but whose drained callback has not
fired yet. -/
structure DState where
  primary : List (String × Bool)
  workers : List Worker
  pendingDrain : List Nat
  deriving Repr, DecidableEq

/-- Look a cluster up in one worker's view. -/
def viewLookup : List (String × List Nat) → String → Option (List Nat)
  | [], _ => none
  | (k, v) :: rest, name => if k = name then some v else viewLookup rest name

/-- Modelled from the spec (§4.4): upon receipt of the "forget this
cluster" post a worker invalidates its local view of the cluster and then
registers a drain callback on each connection pool it held for it.  The
result is the updated worker, the actions in the order performed (view
invalidation first), and the pools now awaiting their drained callback. -/
def forgetCluster (widx : Nat) (w : Worker) (name : String) :
    Worker × List DEv × List Nat :=
  match viewLookup w.view name with
  | none => (w, [], [])
  | some pools =>
      ({ view := w.view.filter (fun kv => kv.1 ≠ name) },
       .removedFromView widx name :: pools.map (fun p => .drainCbRegistered widx p),
       pools)

/-- Process the forget-post on every worker in order. -/
def forgetAll (ws : List Worker) (widx : Nat) (name : String) :
    List Worker × List DEv × List Nat :=
  match ws with
  | [] => ([], [], [])
  | w :: rest =>
      let r := forgetCluster widx w name
      let rs := forgetAll rest (widx + 1) name
      (r.1 :: rs.1, r.2.1 ++ rs.2.1, r.2.2 ++ rs.2.2)

/-- Modelled from the spec (§4.4): `removePrimaryCluster(name)` returns
`false` if the name is unknown or static.  Otherwise it posts the
forget-message to every worker; each worker invalidates its view and
registers the drain callbacks, and the pools join the pending-drain set.
The returned event list is the order in which the actions happened. -/
def removePrimaryCluster (st : DState) (name : String) :
    Bool × DState × List DEv :=
  match st.primary.lookup name with
  | none => (false, st, [])
  | some addedViaApi =>
      if addedViaApi = false then
        (false, st, [])
      else
        let r := forgetAll st.workers 0 name
        (true,
         { primary := st.primary.filter (fun kv => kv.1 ≠ name),
           workers := r.1,
           pendingDrain := st.pendingDrain ++ r.2.2 },
         r.2.1)

/-- Modelled from the spec (§4.4): a pool's drained callback fires once the
pool holds no in-flight requests; firing removes it from the pending set
and deferred-deletes the pool.  Worker views are untouched. -/
def fireDrained (st : DState) (p : Nat) : DState :=
  if p ∈ st.pendingDrain then
    { st with pendingDrain := st.pendingDrain.erase p }
  else
    st

/-- `get(name)` as seen from worker `widx` (null when the worker's view no
longer lists the cluster). -/
def getFromWorker (st : DState) (widx : Nat) (name : String) :
    Option (List Nat) :=
  match st.workers.get? widx with
  | none => none
  | some w => viewLookup w.view name

/-- How many times pool `p` is held for cluster `name` across all workers. -/
def holdCount (st : DState) (name : String) (p : Nat) : Nat :=
  (st.workers.map (fun w =>
    match viewLookup w.view name with
    | none => 0
    | some pools => pools.count p)).sum

end Drain

namespace InitHelper

/-- A cluster's initialization phase. -/
inductive Phase where
  | primary
  | secondary
  deriving Repr, DecidableEq

/-- The four states of the init-helper state machine (spec §4.2). -/
inductive HState where
  | loading
  | waitingForStaticInitialize
  | waitingForSecondaryInitialize
  | allClustersInitialized
  deriving Repr, DecidableEq

/-- What a cluster's `initialize()` does synchronously when invoked:
nothing, or (as in the bug-903 regression scenario) call
`removeCluster(self)` back into the helper. -/
inductive InitBehavior where
  | plain
  | removeSelf
  deriving Repr, DecidableEq

/-- A cluster as the init helper sees it. -/
structure Cluster where
  id : Nat
  phase : Phase
  onInit : InitBehavior
  deriving Repr, DecidableEq

/-- The observable event log of a helper run: `initialize()` invocations on
clusters, done-callbacks firing, the transition that begins the secondary
phase (recording whether the primary pending set was empty at that
moment), and invocations of the manager-level initialized callback. -/
inductive LogE where
  | initCalled (id : Nat) (phase : Phase)
  | doneFired (id : Nat)
  | secondaryPhaseStart (primaryEmpty : Bool)
  | cbFired
  deriving Repr, DecidableEq

/-- Modelled from the spec (§4.2, the init-helper implementation is not in
this source tree): the helper state.  `primaryPending` and
`secondaryPending` are the pending-for-phase tracking sets; `cbSet` is the
stored user callback slot; `cbFires` counts invocations of the
manager-level initialized callback.  The last four fields are
instrumentation that the transition functions maintain alongside the real
state: clusters registered before the `AllClustersInitialized` state,
done-callbacks seen, removals seen before completion, and
`setInitializedCb` calls seen. -/
structure Helper where
  state : HState
  primaryPending : List Cluster
  secondaryPending : List Cluster
  cbSet : Bool
  cbFires : Nat
  log : List LogE
  registered : List (Nat × Phase)
  doneSeen : List Nat
  removedSeen : List Nat
  setCbSeen : Nat
  deriving Repr, DecidableEq

/-- The freshly constructed helper. -/
def initHelper : Helper :=
  { state := .loading, primaryPending := [], secondaryPending := [],
    cbSet := false, cbFires := 0, log := [], registered := [],
    doneSeen := [], removedSeen := [], setCbSeen := 0 }

/-- The ids of a pending list. -/
def ids (l : List Cluster) : List Nat :=
  l.map Cluster.id

/-- `removeCluster`'s core effect (spec §4.2): drop the cluster from all
tracking sets (and record the removal). -/
def removeCore (h : Helper) (cid : Nat) : Helper :=
  { h with
      primaryPending := h.primaryPending.filter (fun c => c.id ≠ cid),
      secondaryPending := h.secondaryPending.filter (fun c => c.id ≠ cid),
      removedSeen := cid :: h.removedSeen }

/-- Modelled from the spec (§4.2): when the secondary pending set becomes
empty (with no primary left pending either) in
`WaitingForSecondaryInitialize`, transition to `AllClustersInitialized`
and fire the user-registered initialized callback (if one is stored). -/
def checkAllInitialized (h : Helper) : Helper :=
  if h.state = .waitingForSecondaryInitialize
      ∧ h.primaryPending = [] ∧ h.secondaryPending = [] then
    if h.cbSet then
      { h with state := .allClustersInitialized,
               cbFires := h.cbFires + 1, log := h.log ++ [.cbFired] }
    else
      { h with state := .allClustersInitialized }
  else h

/-- Invoke `initialize()` on a secondary cluster: log the call and run the
cluster's synchronous behaviour.  A reentrant `removeCluster(self)` (the
bug-903 scenario) drops the cluster from the tracking sets; the helper
then re-checks whether everything has initialized. -/
def invokeInitSecondary (h : Helper) (c : Cluster) : Helper :=
  let h1 := { h with log := h.log ++ [.initCalled c.id c.phase] }
  match c.onInit with
  | .plain => h1
  | .removeSelf => checkAllInitialized (removeCore h1 c.id)

/-- The traversal of the secondary list (spec §4.2): iterate over a
snapshot of the enqueued secondaries, re-validating before each
`initialize()` call that the cluster is still in the tracking set, so that
reentrant `removeCluster` calls cannot invalidate the traversal (the
documented bug-903 invariant). -/
def goSecondaries (h : Helper) : List Cluster → Helper
  | [] => h
  | c :: rest =>
      if h.secondaryPending.any (fun c2 => c2.id = c.id) then
        goSecondaries (invokeInitSecondary h c) rest
      else
        goSecondaries h rest

/-- Start every enqueued secondary cluster once, in insertion order. -/
def startSecondaries (h : Helper) : Helper :=
  goSecondaries h h.secondaryPending

/-- Modelled from the spec (§4.2): react to a pending-set change.  In
`WaitingForStaticInitialize`, once the primary pending set is empty,
transition to `WaitingForSecondaryInitialize` (logging the phase start and
whether the primary set was indeed empty) and call `initialize` on every
enqueued secondary once; then check for overall completion.  In
`WaitingForSecondaryInitialize`, check for overall completion.  Nothing
happens while still `Loading` or after `AllClustersInitialized`. -/
def maybeFinishInitialize (h : Helper) : Helper :=
  match h.state with
  | .loading => h
  | .allClustersInitialized => h
  | .waitingForStaticInitialize =>
      if h.primaryPending = [] then
        let h1 := { h with
                      state := .waitingForSecondaryInitialize,
                      log := h.log ++
                        [.secondaryPhaseStart h.primaryPending.isEmpty] }
        checkAllInitialized (startSecondaries h1)
      else h
  | .waitingForSecondaryInitialize => checkAllInitialized h

/-- Invoke `initialize()` on a primary cluster: log the call and run the
cluster's synchronous behaviour.  A reentrant `removeCluster(self)` drops
the cluster from the tracking sets and lets the machine react (it may
complete the primary phase). -/
def invokeInitPrimary (h : Helper) (c : Cluster) : Helper :=
  let h1 := { h with log := h.log ++ [.initCalled c.id c.phase] }
  match c.onInit with
  | .plain => h1
  | .removeSelf => maybeFinishInitialize (removeCore h1 c.id)

/-- Modelled from the spec (§4.2, §4.4): `addCluster(c)`.  In `Loading` a
primary is tracked and started immediately while a secondary is enqueued.
In later states the cluster is started immediately if its phase matches
the current phase and enqueued otherwise.  After `AllClustersInitialized`
(the late-state path of §4.4) the cluster is started immediately and its
done-callback is a per-cluster event only, so it is not tracked. -/
def addCluster (h : Helper) (c : Cluster) : Helper :=
  match h.state with
  | .allClustersInitialized =>
      match c.phase with
      | .primary => invokeInitPrimary h c
      | .secondary => invokeInitSecondary h c
  | .loading =>
      let h1 := { h with registered := (c.id, c.phase) :: h.registered }
      match c.phase with
      | .primary =>
          invokeInitPrimary
            { h1 with primaryPending := h1.primaryPending ++ [c] } c
      | .secondary =>
          { h1 with secondaryPending := h1.secondaryPending ++ [c] }
  | .waitingForStaticInitialize =>
      let h1 := { h with registered := (c.id, c.phase) :: h.registered }
      match c.phase with
      | .primary =>
          invokeInitPrimary
            { h1 with primaryPending := h1.primaryPending ++ [c] } c
      | .secondary =>
          { h1 with secondaryPending := h1.secondaryPending ++ [c] }
  | .waitingForSecondaryInitialize =>
      let h1 := { h with registered := (c.id, c.phase) :: h.registered }
      match c.phase with
      | .primary =>
          { h1 with primaryPending := h1.primaryPending ++ [c] }
      | .secondary =>
          invokeInitSecondary
            { h1 with secondaryPending := h1.secondaryPending ++ [c] } c

/-- Modelled from the spec (§4.2): a cluster's done-callback fires,
removing it from the pending-for-phase set; the machine then reacts to the
pending-set change. -/
def clusterDone (h : Helper) (cid : Nat) : Helper :=
  maybeFinishInitialize
    { h with
        primaryPending := h.primaryPending.filter (fun c => c.id ≠ cid),
        secondaryPending := h.secondaryPending.filter (fun c => c.id ≠ cid),
        doneSeen := cid :: h.doneSeen,
        log := h.log ++ [.doneFired cid] }

/-- Modelled from the spec (§4.2): an external `removeCluster(c)` call:
drop the cluster from all tracking sets and let the machine react.  After
`AllClustersInitialized` the tracking sets are already empty and nothing
changes. -/
def removeClusterEv (h : Helper) (cid : Nat) : Helper :=
  if h.state = .allClustersInitialized then h
  else maybeFinishInitialize (removeCore h cid)

/-- Modelled from the spec (§4.2): `onStaticLoadComplete` leaves `Loading`
for `WaitingForStaticInitialize` and drives the primary phase (which may
finish immediately). -/
def onStaticLoadComplete (h : Helper) : Helper :=
  if h.state = .loading then
    maybeFinishInitialize { h with state := .waitingForStaticInitialize }
  else h

/-- Modelled from the spec (§4.2): `setInitializedCb(cb)`: if already
`AllClustersInitialized`, invoke `cb` synchronously; otherwise store it. -/
def setInitializedCb (h : Helper) : Helper :=
  let h1 := { h with setCbSeen := h.setCbSeen + 1 }
  if h1.state = .allClustersInitialized then
    { h1 with cbFires := h1.cbFires + 1, log := h1.log ++ [.cbFired] }
  else
    { h1 with cbSet := true }

/-- The external stimuli of a helper run. -/
inductive Ev where
  | add (c : Cluster)
  | done (id : Nat)
  | staticLoadComplete
  | remove (id : Nat)
  | setCb
  deriving Repr, DecidableEq

/-- Process one external event. -/
def step (h : Helper) : Ev → Helper
  | .add c => addCluster h c
  | .done cid => clusterDone h cid
  | .staticLoadComplete => onStaticLoadComplete h
  | .remove cid => removeClusterEv h cid
  | .setCb => setInitializedCb h

/-- Run the helper from its initial state over a list of events. -/
def run (evs : List Ev) : Helper :=
  evs.foldl step initHelper

/-- The number of `setInitializedCb` calls in a list of events. -/
def setCbCount (evs : List Ev) : Nat :=
  (evs.filter (fun e => e = Ev.setCb)).length

/-- Scanner over the log: the first component records whether a
`secondaryPhaseStart` has been seen, the second whether a secondary
`initialize()` call appeared before the first `secondaryPhaseStart`. -/
def scanStep : Bool × Bool → LogE → Bool × Bool
  | (_, bad), .secondaryPhaseStart _ => (true, bad)
  | (seen, bad), .initCalled _ .secondary => (seen, bad || !seen)
  | (seen, bad), _ => (seen, bad)

/-- Run the scanner over a whole log. -/
def scan (l : List LogE) : Bool × Bool :=
  l.foldl scanStep (false, false)

/-- The single secondary cluster of the bug-903 regression scenario: its
`initialize()` synchronously calls `removeCluster(self)` on the helper. -/
def bug903Cluster : Cluster :=
  { id := 7, phase := .secondary, onInit := .removeSelf }

/-- The bug-903 regression run: register the callback, add the
self-removing secondary cluster, then complete the static load. -/
def bug903Run : List Ev :=
  [.setCb, .add bug903Cluster, .staticLoadComplete]

/-- The inductive invariant of the helper state machine, maintained by
every event from the initial state. -/
structure Inv (h : Helper) : Prop where
  firesZero : h.state ≠ .allClustersInitialized → h.cbFires = 0
  cbSetIff : h.state ≠ .allClustersInitialized → (h.cbSet ↔ 1 ≤ h.setCbSeen)
  firesOnce : h.state = .allClustersInitialized → 1 ≤ h.setCbSeen →
      1 ≤ h.cbFires
  firesLe : h.cbFires ≤ h.setCbSeen
  pendingNil : h.state = .allClustersInitialized →
      h.primaryPending = [] ∧ h.secondaryPending = []
  tracked : ∀ id ph, (id, ph) ∈ h.registered → id ∉ h.removedSeen →
      id ∉ h.doneSeen →
      (ph = .primary → id ∈ ids h.primaryPending) ∧
      (ph = .secondary → id ∈ ids h.secondaryPending)
  scanOk : (scan h.log).2 = false
  scanSeen : (scan h.log).1 = true ↔
      (h.state = .waitingForSecondaryInitialize ∨
       h.state = .allClustersInitialized)
  flagsTrue : ∀ b, LogE.secondaryPhaseStart b ∈ h.log → b = true

end InitHelper

namespace Drain

/-- The number of `addDrainedCallback` registrations for pool `p`
appearing in an event list. -/
def countDrainFor (evs : List DEv) (p : Nat) : Nat :=
  (evs.filter (fun e =>
    match e with
    | .drainCbRegistered _ q => q = p
    | _ => false)).length

end Drain

/-! ## Theorems -/

namespace Opts

/-- C9 counterexample: with `--base-id 9223372036854775808` (2^63, a legal
`uint64_t`) the stored base ID is 0, not 10 times the supplied value: the
`uint64_t` multiplication by 10 wraps. -/
theorem storedBaseId_not_times_ten :
    ¬ storedBaseId (some (2 ^ 63)) = 10 * 2 ^ 63 := by
  decide

/-- C9 (amended): for every `uint64_t` value supplied to `--base-id`, the
stored base ID equals 10 times the value reduced modulo 2^64 (so it equals
exactly 10 times the value whenever that product fits in a `uint64_t`),
and an absent flag stores 0. -/
theorem storedBaseId_times_ten_mod (v : Nat) (hv : v < 2 ^ 64) :
    storedBaseId (some v) = (10 * v) % 2 ^ 64
    ∧ (10 * v < 2 ^ 64 → storedBaseId (some v) = 10 * v)
    ∧ storedBaseId none = 0 := by
  refine ⟨?_, ?_, rfl⟩
  · simp [storedBaseId, UINT64_MOD, Nat.mul_comm]
  · intro h
    simp only [storedBaseId, UINT64_MOD, Option.getD]
    rw [Nat.mul_comm v 10]
    exact Nat.mod_eq_of_lt h

/-- Witness for the amended C9 theorem at a concrete flag value. -/
theorem storedBaseId_times_ten_mod_witness :
    storedBaseId (some 7) = (10 * 7) % 2 ^ 64 ∧ storedBaseId (some 7) = 70 :=
  have h := storedBaseId_times_ten_mod 7 (by decide)
  ⟨h.1, h.2.1 (by decide)⟩

end Opts

namespace Validation

/-- C8: `validateConfig` returns `true` exactly when constructing and
initializing the `ValidationInstance` completes without an
`EnvoyException`, and the validation instance's `createListenSocket`,
`createWorker` and `createDnsResolver` all return null, so no socket is
opened, no worker is spawned and no DNS query is issued during a
validation run. -/
theorem validateConfig_ok (env : ValidationEnv) (inst : ValidationInstance) :
    (validateConfig env = true ↔ ∃ u, env.initializeResult = .ok u)
    ∧ inst.createListenSocket = none
    ∧ inst.createWorker = none
    ∧ inst.createDnsResolver = none := by
  refine ⟨?_, rfl, rfl, rfl⟩
  constructor
  · intro h
    cases hres : env.initializeResult with
    | ok u => exact ⟨u, rfl⟩
    | error e =>
        simp [validateConfig, ValidationInstance.construct, hres] at h
  · rintro ⟨u, hres⟩
    simp [validateConfig, ValidationInstance.construct, hres]

end Validation

namespace FsSub

/-- C10: the filesystem subscription's behaviour is independent of the
resource-name lists: `start` produces the same state, the same installed
moved-to watch on the configured path and the same refresh outcome for any
two resource lists, and `updateResources` changes nothing at all. -/
theorem start_ignores_resources (env : RefreshEnv) (st : FsSubState)
    (rs1 rs2 : List String) :
    start env st rs1 = start env st rs2
    ∧ (start env st rs1).2.1 = [.storeCallbacks, .addWatch st.path "MovedTo"]
    ∧ updateResources st rs1 = st := by
  exact ⟨rfl, rfl, rfl⟩

/-- C7: every `refresh` increments `update_attempt` and exactly one of
`update_success`, `update_rejected` and `update_failure` (so no exception
escapes: the function totalizes every outcome).  A successful load,
extraction and `onConfigUpdate` counts a success; an `EnvoyException`
before the resources were extracted counts a failure; one thrown by
`onConfigUpdate` afterwards counts a rejection; in both error cases
`onConfigUpdateFailed` is invoked exactly once with the error. -/
theorem refresh_counts (env : RefreshEnv) (stats : SubscriptionStats) :
    ((refresh env stats).1.update_attempt = stats.update_attempt + 1)
    ∧ (((refresh env stats).1.update_success = stats.update_success + 1
          ∧ (refresh env stats).1.update_rejected = stats.update_rejected
          ∧ (refresh env stats).1.update_failure = stats.update_failure)
       ∨ ((refresh env stats).1.update_success = stats.update_success
          ∧ (refresh env stats).1.update_rejected = stats.update_rejected + 1
          ∧ (refresh env stats).1.update_failure = stats.update_failure)
       ∨ ((refresh env stats).1.update_success = stats.update_success
          ∧ (refresh env stats).1.update_rejected = stats.update_rejected
          ∧ (refresh env stats).1.update_failure = stats.update_failure + 1))
    ∧ (∀ e, env.loadFromFile = .error e →
        (refresh env stats).1.update_failure = stats.update_failure + 1
        ∧ (refresh env stats).2 = [.onConfigUpdateFailed e])
    ∧ (∀ m e, env.loadFromFile = .ok m → env.getTypedResources m = .error e →
        (refresh env stats).1.update_failure = stats.update_failure + 1
        ∧ (refresh env stats).2 = [.onConfigUpdateFailed e])
    ∧ (∀ m rs e, env.loadFromFile = .ok m → env.getTypedResources m = .ok rs →
        env.onConfigUpdate rs = .error e →
        (refresh env stats).1.update_rejected = stats.update_rejected + 1
        ∧ (refresh env stats).2 = [.onConfigUpdate rs, .onConfigUpdateFailed e])
    ∧ (∀ m rs u, env.loadFromFile = .ok m → env.getTypedResources m = .ok rs →
        env.onConfigUpdate rs = .ok u →
        (refresh env stats).1.update_success = stats.update_success + 1
        ∧ (refresh env stats).2 = [.onConfigUpdate rs]) := by
  cases hload : env.loadFromFile with
  | error e =>
      refine ⟨by simp [refresh, hload], ?_, ?_, ?_, ?_, ?_⟩
      · exact Or.inr (Or.inr (by simp [refresh, hload]))
      · intro e' he'
        injection he' with h
        subst h
        exact ⟨by simp [refresh, hload], by simp [refresh, hload]⟩
      · intro m e' hm
        simp at hm
      · intro m rs e' hm
        simp at hm
      · intro m rs u hm
        simp at hm
  | ok m =>
      cases hres : env.getTypedResources m with
      | error e =>
          refine ⟨by simp [refresh, hload, hres], ?_, ?_, ?_, ?_, ?_⟩
          · exact Or.inr (Or.inr (by simp [refresh, hload, hres]))
          · intro e' he'
            simp at he'
          · intro m' e' hm hr
            injection hm with h
            subst h
            rw [hres] at hr
            injection hr with h
            subst h
            exact ⟨by simp [refresh, hload, hres], by simp [refresh, hload, hres]⟩
          · intro m' rs e' hm hr hu
            injection hm with h
            subst h
            rw [hres] at hr
            simp at hr
          · intro m' rs u hm hr hu
            injection hm with h
            subst h
            rw [hres] at hr
            simp at hr
      | ok rs =>
          cases hupd : env.onConfigUpdate rs with
          | error e =>
              refine ⟨by simp [refresh, hload, hres, hupd], ?_, ?_, ?_, ?_, ?_⟩
              · exact Or.inr (Or.inl (by simp [refresh, hload, hres, hupd]))
              · intro e' he'
                simp at he'
              · intro m' e' hm hr
                injection hm with h
                subst h
                rw [hres] at hr
                simp at hr
              · intro m' rs' e' hm hr hu
                injection hm with h
                subst h
                rw [hres] at hr
                injection hr with h
                subst h
                rw [hupd] at hu
                injection hu with h
                subst h
                exact ⟨by simp [refresh, hload, hres, hupd],
                       by simp [refresh, hload, hres, hupd]⟩
              · intro m' rs' u hm hr hu
                injection hm with h
                subst h
                rw [hres] at hr
                injection hr with h
                subst h
                rw [hupd] at hu
                simp at hu
          | ok u =>
              refine ⟨by simp [refresh, hload, hres, hupd], ?_, ?_, ?_, ?_, ?_⟩
              · exact Or.inl (by simp [refresh, hload, hres, hupd])
              · intro e' he'
                simp at he'
              · intro m' e' hm hr
                injection hm with h
                subst h
                rw [hres] at hr
                simp at hr
              · intro m' rs' e' hm hr hu
                injection hm with h
                subst h
                rw [hres] at hr
                injection hr with h
                subst h
                rw [hupd] at hu
                simp at hu
              · intro m' rs' u' hm hr hu
                injection hm with h
                subst h
                rw [hres] at hr
                injection hr with h
                subst h
                rw [hupd] at hu
                exact ⟨by simp [refresh, hload, hres, hupd],
                       by simp [refresh, hload, hres, hupd]⟩

/-- Witness for the C7 theorem: a concrete environment whose
`onConfigUpdate` rejects the update. -/
theorem refresh_counts_witness :
    (refresh
      { loadFromFile := .ok "doc",
        getTypedResources := fun m => .ok [m],
        onConfigUpdate := fun _ => .error "bad" }
      { update_attempt := 0, update_success := 0,
        update_rejected := 0, update_failure := 0 }).1.update_rejected = 1 :=
  (((refresh_counts
      { loadFromFile := .ok "doc",
        getTypedResources := fun m => .ok [m],
        onConfigUpdate := fun _ => .error "bad" }
      { update_attempt := 0, update_success := 0,
        update_rejected := 0, update_failure := 0 }).2.2.2.2.1)
    "doc" ["doc"] "bad" rfl rfl rfl).1

end FsSub

namespace Registry

/-- After replacing the entry stored under a present name, looking the
name up yields the replacement. -/
theorem lookup_setEntry_self :
    ∀ (reg : List (String × Entry)) (name : String) (e0 e : Entry),
      lookup reg name = some e0 → lookup (setEntry reg name e) name = some e
  | [], name, e0, e, h => by simp [lookup] at h
  | (k, v) :: rest, name, e0, e, h => by
      by_cases hk : k = name
      · simp [lookup, setEntry, hk]
      · simp only [lookup, setEntry, if_neg hk] at h ⊢
        exact lookup_setEntry_self rest name e0 e h

/-- A second `addOrUpdatePrimaryCluster` call with a definition whose hash
is already stored under its name as an API cluster is a no-op returning
`false`. -/
theorem addOrUpdate_same_hash (st : CM) (d : ClusterDef)
    (h : lookup st.registry d.name = some { hash := d.hashOf, addedViaApi := true }) :
    addOrUpdatePrimaryCluster st d = (false, st) := by
  simp [addOrUpdatePrimaryCluster, h]

/-- C2: for every registry state and definition `D` whose name is not yet
registered, the first `addOrUpdatePrimaryCluster(D)` returns `true`; and
from any state, the call immediately following an `addOrUpdate(D)` with
the same `D` returns `false` and changes nothing: same registry, no
factory invocation, and the `cluster_added` / `cluster_modified` counters
and the `total_clusters` gauge are untouched. -/
theorem addOrUpdate_twice (st : CM) (d : ClusterDef) :
    (lookup st.registry d.name = none →
        (addOrUpdatePrimaryCluster st d).1 = true)
    ∧ addOrUpdatePrimaryCluster (addOrUpdatePrimaryCluster st d).2 d
        = (false, (addOrUpdatePrimaryCluster st d).2)
    ∧ (addOrUpdatePrimaryCluster (addOrUpdatePrimaryCluster st d).2 d).2.factoryCalls
        = (addOrUpdatePrimaryCluster st d).2.factoryCalls
    ∧ (addOrUpdatePrimaryCluster (addOrUpdatePrimaryCluster st d).2 d).2.cluster_added
        = (addOrUpdatePrimaryCluster st d).2.cluster_added
    ∧ (addOrUpdatePrimaryCluster (addOrUpdatePrimaryCluster st d).2 d).2.cluster_modified
        = (addOrUpdatePrimaryCluster st d).2.cluster_modified
    ∧ totalClusters (addOrUpdatePrimaryCluster (addOrUpdatePrimaryCluster st d).2 d).2
        = totalClusters (addOrUpdatePrimaryCluster st d).2 := by
  have hsecond : addOrUpdatePrimaryCluster (addOrUpdatePrimaryCluster st d).2 d
      = (false, (addOrUpdatePrimaryCluster st d).2) := by
    cases hl : lookup st.registry d.name with
    | none =>
        apply addOrUpdate_same_hash
        simp [addOrUpdatePrimaryCluster, hl, lookup]
    | some e =>
        by_cases hapi : e.addedViaApi = false
        · have hfst : addOrUpdatePrimaryCluster st d = (false, st) := by
            simp [addOrUpdatePrimaryCluster, hl, hapi]
          rw [hfst]
          simp [addOrUpdatePrimaryCluster, hl, hapi]
        · by_cases hh : e.hash = d.hashOf
          · have he : e = { hash := d.hashOf, addedViaApi := true } := by
              cases e
              simp_all
            subst he
            have hfst : addOrUpdatePrimaryCluster st d = (false, st) := by
              simp [addOrUpdatePrimaryCluster, hl]
            rw [hfst]
            exact addOrUpdate_same_hash st d hl
          · apply addOrUpdate_same_hash
            have hreg : (addOrUpdatePrimaryCluster st d).2.registry
                = setEntry st.registry d.name { hash := d.hashOf, addedViaApi := true } := by
              simp [addOrUpdatePrimaryCluster, hl, hapi, hh]
            rw [hreg]
            exact lookup_setEntry_self st.registry d.name e _ hl
  refine ⟨?_, hsecond, ?_, ?_, ?_, ?_⟩
  · intro hl
    simp [addOrUpdatePrimaryCluster, hl]
  · rw [hsecond]
  · rw [hsecond]
  · rw [hsecond]
  · rw [hsecond]

/-- Witness for the C2 theorem: adding a fresh definition to the empty
registry succeeds, and the immediate repeat is a rejected no-op. -/
theorem addOrUpdate_twice_witness :
    (addOrUpdatePrimaryCluster
        { registry := [], cluster_added := 0, cluster_modified := 0,
          cluster_removed := 0, factoryCalls := 0 }
        { name := "fake_cluster", config := 0 }).1 = true
    ∧ addOrUpdatePrimaryCluster
        (addOrUpdatePrimaryCluster
          { registry := [], cluster_added := 0, cluster_modified := 0,
            cluster_removed := 0, factoryCalls := 0 }
          { name := "fake_cluster", config := 0 }).2
        { name := "fake_cluster", config := 0 }
      = (false,
         (addOrUpdatePrimaryCluster
           { registry := [], cluster_added := 0, cluster_modified := 0,
             cluster_removed := 0, factoryCalls := 0 }
           { name := "fake_cluster", config := 0 }).2) :=
  have h := addOrUpdate_twice
    { registry := [], cluster_added := 0, cluster_modified := 0,
      cluster_removed := 0, factoryCalls := 0 }
    { name := "fake_cluster", config := 0 }
  ⟨h.1 rfl, h.2.1⟩

/-- C3: a name registered as a static (non-API) cluster rejects both
`addOrUpdatePrimaryCluster` of any definition with that name and
`removePrimaryCluster`, each returning `false` with the state unchanged
and the static cluster still registered; `removePrimaryCluster` of an
unknown name also returns `false`. -/
theorem static_cluster_protected (st : CM) (name : String) :
    (∀ e, lookup st.registry name = some e → e.addedViaApi = false →
       (∀ d : ClusterDef, d.name = name →
          addOrUpdatePrimaryCluster st d = (false, st))
       ∧ removePrimaryCluster st name = (false, st)
       ∧ lookup (removePrimaryCluster st name).2.registry name = some e)
    ∧ (lookup st.registry name = none →
        removePrimaryCluster st name = (false, st)) := by
  constructor
  · intro e hl hapi
    have hrem : removePrimaryCluster st name = (false, st) := by
      simp [removePrimaryCluster, hl, hapi]
    refine ⟨?_, hrem, ?_⟩
    · intro d hd
      subst hd
      simp [addOrUpdatePrimaryCluster, hl, hapi]
    · rw [hrem]
      exact hl
  · intro hl
    simp [removePrimaryCluster, hl]

/-- Witness for the C3 theorem: a registry with one static cluster rejects
re-adding and removing it, and removing an unknown name fails. -/
theorem static_cluster_protected_witness :
    addOrUpdatePrimaryCluster
        { registry := [("fake_cluster", { hash := ("fake_cluster", 0), addedViaApi := false })],
          cluster_added := 1, cluster_modified := 0, cluster_removed := 0,
          factoryCalls := 1 }
        { name := "fake_cluster", config := 5 }
      = (false,
         { registry := [("fake_cluster", { hash := ("fake_cluster", 0), addedViaApi := false })],
           cluster_added := 1, cluster_modified := 0, cluster_removed := 0,
           factoryCalls := 1 })
    ∧ removePrimaryCluster
        { registry := [("fake_cluster", { hash := ("fake_cluster", 0), addedViaApi := false })],
          cluster_added := 1, cluster_modified := 0, cluster_removed := 0,
          factoryCalls := 1 }
        "foo"
      = (false,
         { registry := [("fake_cluster", { hash := ("fake_cluster", 0), addedViaApi := false })],
           cluster_added := 1, cluster_modified := 0, cluster_removed := 0,
           factoryCalls := 1 }) :=
  have h := static_cluster_protected
    { registry := [("fake_cluster", { hash := ("fake_cluster", 0), addedViaApi := false })],
      cluster_added := 1, cluster_modified := 0, cluster_removed := 0,
      factoryCalls := 1 }
  ⟨((h "fake_cluster").1 { hash := ("fake_cluster", 0), addedViaApi := false }
      (by simp [lookup]) rfl).1
      { name := "fake_cluster", config := 5 } rfl,
   (h "foo").2 (by simp [lookup])⟩

end Registry

namespace Tls

/-- Bumping a per-cluster `upstream_cx_none_healthy` counter increments
exactly that cluster's reading by one. -/
theorem noneHealthy_bump (st : TState) (name : String) :
    noneHealthy (bumpNoneHealthy st name) name = noneHealthy st name + 1 := by
  simp [noneHealthy, bumpNoneHealthy, List.lookup]

/-- C5: for an unknown cluster name, `get` and `httpConnPoolForCluster`
return null (with no state change) while `tcpConnForCluster` and
`httpAsyncClientForCluster` throw the cluster-unknown error; for a
registered cluster with no healthy host, `httpConnPoolForCluster` returns
null and increments `cluster.<name>.upstream_cx_none_healthy` by one per
failed lookup, while `tcpConnForCluster` returns, without throwing, a
result whose connection is null. -/
theorem cluster_lookup_errors (st : TState) (name : String) (p : Prio) :
    (get st name = none →
       httpConnPoolForCluster st name p = (none, st)
       ∧ tcpConnForCluster st name = .error ("unknown cluster " ++ name)
       ∧ httpAsyncClientForCluster st name = .error ("unknown cluster " ++ name))
    ∧ (∀ e, get st name = some e → e.healthyHosts = [] →
       (httpConnPoolForCluster st name p).1 = none
       ∧ noneHealthy (httpConnPoolForCluster st name p).2 name
           = noneHealthy st name + 1
       ∧ tcpConnForCluster st name
           = .ok ({ connection := none, host := none }, bumpNoneHealthy st name)) := by
  constructor
  · intro h
    exact ⟨by simp [httpConnPoolForCluster, h],
           by simp [tcpConnForCluster, h],
           by simp [httpAsyncClientForCluster, h]⟩
  · intro e h hh
    refine ⟨by simp [httpConnPoolForCluster, h, hh], ?_,
            by simp [tcpConnForCluster, h, hh]⟩
    have hpool : (httpConnPoolForCluster st name p).2 = bumpNoneHealthy st name := by
      simp [httpConnPoolForCluster, h, hh]
    rw [hpool]
    exact noneHealthy_bump st name

/-- Witness for the C5 theorem: a view holding one cluster with no healthy
host; looking up that cluster fails over to the counted null results and
an unknown name errors. -/
theorem cluster_lookup_errors_witness :
    (httpConnPoolForCluster
        { clusters := [("cluster_1", { healthyHosts := [], pools := [] })],
          cx_none_healthy := [], nextPool := 0 }
        "cluster_1" .default).1 = none
    ∧ tcpConnForCluster
        { clusters := [("cluster_1", { healthyHosts := [], pools := [] })],
          cx_none_healthy := [], nextPool := 0 }
        "hello"
      = .error "unknown cluster hello" :=
  have h1 := cluster_lookup_errors
    { clusters := [("cluster_1", { healthyHosts := [], pools := [] })],
      cx_none_healthy := [], nextPool := 0 }
    "cluster_1" .default
  have h2 := cluster_lookup_errors
    { clusters := [("cluster_1", { healthyHosts := [], pools := [] })],
      cx_none_healthy := [], nextPool := 0 }
    "hello" .default
  ⟨(h1.2 { healthyHosts := [], pools := [] } (by simp [get, getCluster]) rfl).1,
   (h2.1 (by simp [get, getCluster])).2.1⟩

end Tls

namespace Drain

/-- Dropping every entry of a name from a view makes lookups of that name
fail. -/
theorem viewLookup_filter_self :
    ∀ (l : List (String × List Nat)) (name : String),
      viewLookup (l.filter (fun kv => kv.1 ≠ name)) name = none
  | [], name => by simp [viewLookup]
  | (k, v) :: rest, name => by
      by_cases hk : k = name
      · simp only [List.filter_cons]
        simp only [show (decide ((k, v).1 ≠ name)) = false by simp [hk]]
        exact viewLookup_filter_self rest name
      · simp only [List.filter_cons]
        simp only [show (decide ((k, v).1 ≠ name)) = true by simp [hk]]
        simp only [viewLookup, if_neg hk]
        exact viewLookup_filter_self rest name

/-- After the forget-post is processed the worker's view no longer lists
the cluster. -/
theorem forgetCluster_view (widx : Nat) (w : Worker) (name : String) :
    viewLookup (forgetCluster widx w name).1.view name = none := by
  cases hv : viewLookup w.view name with
  | none =>
      simp only [forgetCluster, hv]
  | some pools =>
      simp only [forgetCluster, hv]
      exact viewLookup_filter_self w.view name

/-- Counting drain registrations in the per-pool registration events. -/
theorem countDrainFor_map (widx p : Nat) (pools : List Nat) :
    countDrainFor (pools.map (fun q => DEv.drainCbRegistered widx q)) p
      = pools.count p := by
  induction pools with
  | nil => simp [countDrainFor]
  | cons q rest ih =>
      by_cases hq : q = p
      · simp [countDrainFor, List.filter_cons, hq, List.count_cons] at ih ⊢
        omega
      · simp [countDrainFor, List.filter_cons, hq, List.count_cons] at ih ⊢
        omega

/-- Drain registrations split over concatenated event lists. -/
theorem countDrainFor_append (a b : List DEv) (p : Nat) :
    countDrainFor (a ++ b) p = countDrainFor a p + countDrainFor b p := by
  simp [countDrainFor, List.filter_append]

/-- The forget-post on one worker registers a drain callback once per pool
held for the cluster. -/
theorem forgetCluster_count (widx p : Nat) (w : Worker) (name : String) :
    countDrainFor (forgetCluster widx w name).2.1 p
      = (match viewLookup w.view name with
         | none => 0
         | some pools => pools.count p) := by
  cases hv : viewLookup w.view name with
  | none => simp [forgetCluster, hv, countDrainFor]
  | some pools =>
      have hhead : countDrainFor
          (DEv.removedFromView widx name
            :: pools.map (fun q => DEv.drainCbRegistered widx q)) p
          = countDrainFor (pools.map (fun q => DEv.drainCbRegistered widx q)) p := by
        simp [countDrainFor, List.filter_cons]
      simp only [forgetCluster, hv]
      rw [hhead, countDrainFor_map]

/-- Every worker produced by the fan-out of the forget-post has forgotten
the cluster. -/
theorem forgetAll_view :
    ∀ (ws : List Worker) (i : Nat) (name : String) (w' : Worker),
      w' ∈ (forgetAll ws i name).1 → viewLookup w'.view name = none
  | [], _, _, _, h => by simp [forgetAll] at h
  | w :: rest, i, name, w', h => by
      simp only [forgetAll] at h
      rcases List.mem_cons.mp h with h1 | h2
      · rw [h1]
        exact forgetCluster_view i w name
      · exact forgetAll_view rest (i + 1) name w' h2

/-- The fan-out registers a drain callback exactly once per pool instance
held for the cluster across all workers. -/
theorem forgetAll_count :
    ∀ (ws : List Worker) (i : Nat) (name : String) (p : Nat),
      countDrainFor (forgetAll ws i name).2.1 p
        = (ws.map (fun w =>
            match viewLookup w.view name with
            | none => 0
            | some pools => pools.count p)).sum
  | [], _, _, _ => by simp [forgetAll, countDrainFor]
  | w :: rest, i, name, p => by
      simp only [forgetAll, List.map_cons, List.sum_cons]
      rw [countDrainFor_append, forgetCluster_count,
          forgetAll_count rest (i + 1) name p]

/-- The fan-out collects each held pool into the pending-drain set exactly
as often as it is held. -/
theorem forgetAll_pending :
    ∀ (ws : List Worker) (i : Nat) (name : String) (p : Nat),
      (forgetAll ws i name).2.2.count p
        = (ws.map (fun w =>
            match viewLookup w.view name with
            | none => 0
            | some pools => pools.count p)).sum
  | [], _, _, _ => by simp [forgetAll]
  | w :: rest, i, name, p => by
      simp only [forgetAll, List.map_cons, List.sum_cons]
      rw [List.count_append]
      congr 1
      · cases hv : viewLookup w.view name with
        | none => simp [forgetCluster, hv]
        | some pools => simp [forgetCluster, hv]
      · exact forgetAll_pending rest (i + 1) name p

/-- Firing a drained callback leaves every worker view untouched. -/
theorem fireDrained_workers (st : DState) (p : Nat) :
    (fireDrained st p).workers = st.workers := by
  simp only [fireDrained]
  split <;> rfl

/-- C4: removing an API-added cluster C that holds exactly one instance of
an outstanding connection pool P succeeds; `P.addDrainedCallback` is
invoked exactly once; P joins the pending-drain set; the cluster is gone
from every per-worker view as soon as the removal completes — hence before
any drained callback fires — and it stays unreachable (`get` returns null
from every worker) after any drained callback fires. -/
theorem removePrimaryCluster_drains (st : DState) (name : String) (pool : Nat)
    (hapi : st.primary.lookup name = some true)
    (hhold : holdCount st name pool = 1) :
    (removePrimaryCluster st name).1 = true
    ∧ countDrainFor (removePrimaryCluster st name).2.2 pool = 1
    ∧ (∀ widx, getFromWorker (removePrimaryCluster st name).2.1 widx name = none)
    ∧ pool ∈ (removePrimaryCluster st name).2.1.pendingDrain
    ∧ (∀ q widx,
        getFromWorker (fireDrained (removePrimaryCluster st name).2.1 q) widx name
          = none) := by
  have hr : removePrimaryCluster st name
      = (true,
         { primary := st.primary.filter (fun kv => kv.1 ≠ name),
           workers := (forgetAll st.workers 0 name).1,
           pendingDrain := st.pendingDrain ++ (forgetAll st.workers 0 name).2.2 },
         (forgetAll st.workers 0 name).2.1) := by
    simp [removePrimaryCluster, hapi]
  have hview : ∀ widx, getFromWorker (removePrimaryCluster st name).2.1 widx name
      = none := by
    intro widx
    rw [hr]
    simp only [getFromWorker]
    cases hw : ((forgetAll st.workers 0 name).1).get? widx with
    | none => simp [hw]
    | some w' =>
        simp only [hw]
        refine forgetAll_view st.workers 0 name w' ?_
        exact List.get?_mem hw
  refine ⟨?_, ?_, hview, ?_, ?_⟩
  · rw [hr]
  · rw [hr]
    show countDrainFor (forgetAll st.workers 0 name).2.1 pool = 1
    rw [forgetAll_count]
    exact hhold
  · rw [hr]
    have hc : (forgetAll st.workers 0 name).2.2.count pool = 1 := by
      rw [forgetAll_pending]
      exact hhold
    have hmem : pool ∈ (forgetAll st.workers 0 name).2.2 := by
      have hpos : 0 < (forgetAll st.workers 0 name).2.2.count pool := by omega
      exact List.count_pos_iff.mp hpos
    show pool ∈ st.pendingDrain ++ (forgetAll st.workers 0 name).2.2
    exact List.mem_append.mpr (Or.inr hmem)
  · intro q widx
    have hw := fireDrained_workers (removePrimaryCluster st name).2.1 q
    have hv := hview widx
    simp only [getFromWorker] at hv ⊢
    rw [hw]
    exact hv

/-- Witness for the C4 theorem: one worker holding one pool for the one
API-added cluster. -/
theorem removePrimaryCluster_drains_witness :
    (removePrimaryCluster
      { primary := [("fake_cluster", true)],
        workers := [{ view := [("fake_cluster", [42])] }],
        pendingDrain := [] }
      "fake_cluster").1 = true
    ∧ countDrainFor
        (removePrimaryCluster
          { primary := [("fake_cluster", true)],
            workers := [{ view := [("fake_cluster", [42])] }],
            pendingDrain := [] }
          "fake_cluster").2.2 42 = 1
    ∧ getFromWorker
        (removePrimaryCluster
          { primary := [("fake_cluster", true)],
            workers := [{ view := [("fake_cluster", [42])] }],
            pendingDrain := [] }
          "fake_cluster").2.1 0 "fake_cluster" = none :=
  have h := removePrimaryCluster_drains
    { primary := [("fake_cluster", true)],
      workers := [{ view := [("fake_cluster", [42])] }],
      pendingDrain := [] }
    "fake_cluster" 42 (by simp [List.lookup]) (by simp [holdCount, viewLookup])
  ⟨h.1, h.2.1, h.2.2.1 0⟩

end Drain

namespace InitHelper

/-- Scanning one appended entry applies one scanner step. -/
theorem scan_append_one (l : List LogE) (e : LogE) :
    scan (l ++ [e]) = scanStep (scan l) e := by
  simp [scan, List.foldl_append]

/-- `cbFired` entries are neutral for the scanner. -/
theorem scanStep_cbFired (p : Bool × Bool) : scanStep p .cbFired = p := by
  rcases p with ⟨s, b⟩
  rfl

/-- `doneFired` entries are neutral for the scanner. -/
theorem scanStep_doneFired (p : Bool × Bool) (i : Nat) :
    scanStep p (.doneFired i) = p := by
  rcases p with ⟨s, b⟩
  rfl

/-- Primary `initialize()` entries are neutral for the scanner. -/
theorem scanStep_initPrimary (p : Bool × Bool) (i : Nat) :
    scanStep p (.initCalled i .primary) = p := by
  rcases p with ⟨s, b⟩
  rfl

/-- A phase-start entry marks the phase as seen and keeps the verdict. -/
theorem scanStep_phaseStart (p : Bool × Bool) (f : Bool) :
    scanStep p (.secondaryPhaseStart f) = (true, p.2) := by
  rcases p with ⟨s, b⟩
  rfl

/-- Once the phase start has been seen, any `initialize()` entry is
neutral for the scanner. -/
theorem scanStep_initCalled_of_seen (p : Bool × Bool) (i : Nat) (ph : Phase)
    (hs : p.1 = true) : scanStep p (.initCalled i ph) = p := by
  rcases p with ⟨s, b⟩
  cases ph
  · rfl
  · simp only at hs
    subst hs
    simp [scanStep]

/-- Membership in the ids of a pending list survives dropping a different
id. -/
theorem mem_ids_filter_ne (l : List Cluster) (i cid : Nat)
    (hm : i ∈ ids l) (hne : i ≠ cid) :
    i ∈ ids (l.filter (fun c => c.id ≠ cid)) := by
  simp only [ids, List.mem_map] at hm ⊢
  obtain ⟨c, hc, hid⟩ := hm
  refine ⟨c, List.mem_filter.mpr ⟨hc, ?_⟩, hid⟩
  simp [hid, hne]

/-- Membership in the ids of a pending list survives enqueueing. -/
theorem mem_ids_append_left (l : List Cluster) (c : Cluster) (i : Nat)
    (hm : i ∈ ids l) : i ∈ ids (l ++ [c]) := by
  simp only [ids, List.map_append, List.mem_append]
  exact Or.inl hm

/-- `checkAllInitialized` does not touch the `setInitializedCb` count. -/
theorem setCbSeen_checkAllInitialized (h : Helper) :
    (checkAllInitialized h).setCbSeen = h.setCbSeen := by
  unfold checkAllInitialized
  split
  · split <;> rfl
  · rfl

/-- `removeCore` does not touch the `setInitializedCb` count. -/
theorem setCbSeen_removeCore (h : Helper) (cid : Nat) :
    (removeCore h cid).setCbSeen = h.setCbSeen :=
  rfl

/-- `invokeInitSecondary` does not touch the `setInitializedCb` count. -/
theorem setCbSeen_invokeInitSecondary (h : Helper) (c : Cluster) :
    (invokeInitSecondary h c).setCbSeen = h.setCbSeen := by
  unfold invokeInitSecondary
  cases c.onInit
  · rfl
  · rw [setCbSeen_checkAllInitialized]
    rfl

/-- The secondary traversal does not touch the `setInitializedCb` count. -/
theorem setCbSeen_goSecondaries :
    ∀ (l : List Cluster) (h : Helper),
      (goSecondaries h l).setCbSeen = h.setCbSeen
  | [], _ => rfl
  | c :: rest, h => by
      unfold goSecondaries
      split
      · rw [setCbSeen_goSecondaries rest, setCbSeen_invokeInitSecondary]
      · exact setCbSeen_goSecondaries rest h

/-- `maybeFinishInitialize` does not touch the `setInitializedCb` count. -/
theorem setCbSeen_maybeFinishInitialize (h : Helper) :
    (maybeFinishInitialize h).setCbSeen = h.setCbSeen := by
  unfold maybeFinishInitialize
  cases hst : h.state
  · rfl
  · simp only
    split
    · rw [setCbSeen_checkAllInitialized]
      unfold startSecondaries
      rw [setCbSeen_goSecondaries]
    · rfl
  · simp only
    rw [setCbSeen_checkAllInitialized]
  · rfl

/-- `invokeInitPrimary` does not touch the `setInitializedCb` count. -/
theorem setCbSeen_invokeInitPrimary (h : Helper) (c : Cluster) :
    (invokeInitPrimary h c).setCbSeen = h.setCbSeen := by
  unfold invokeInitPrimary
  cases c.onInit
  · rfl
  · rw [setCbSeen_maybeFinishInitialize]
    rfl

/-- `addCluster` does not touch the `setInitializedCb` count. -/
theorem setCbSeen_addCluster (h : Helper) (c : Cluster) :
    (addCluster h c).setCbSeen = h.setCbSeen := by
  unfold addCluster
  cases h.state <;> cases c.phase <;>
    simp only [setCbSeen_invokeInitPrimary, setCbSeen_invokeInitSecondary]

/-- `clusterDone` does not touch the `setInitializedCb` count. -/
theorem setCbSeen_clusterDone (h : Helper) (cid : Nat) :
    (clusterDone h cid).setCbSeen = h.setCbSeen := by
  unfold clusterDone
  rw [setCbSeen_maybeFinishInitialize]

/-- `removeClusterEv` does not touch the `setInitializedCb` count. -/
theorem setCbSeen_removeClusterEv (h : Helper) (cid : Nat) :
    (removeClusterEv h cid).setCbSeen = h.setCbSeen := by
  unfold removeClusterEv
  split
  · rfl
  · rw [setCbSeen_maybeFinishInitialize]
    rfl

/-- `onStaticLoadComplete` does not touch the `setInitializedCb` count. -/
theorem setCbSeen_onStaticLoadComplete (h : Helper) :
    (onStaticLoadComplete h).setCbSeen = h.setCbSeen := by
  unfold onStaticLoadComplete
  split
  · rw [setCbSeen_maybeFinishInitialize]
  · rfl

/-- Exactly the `setCb` events bump the `setInitializedCb` count. -/
theorem setCbSeen_step (h : Helper) (e : Ev) :
    (step h e).setCbSeen = h.setCbSeen + (if e = .setCb then 1 else 0) := by
  cases e with
  | add c => simp [step, setCbSeen_addCluster]
  | done cid => simp [step, setCbSeen_clusterDone]
  | staticLoadComplete => simp [step, setCbSeen_onStaticLoadComplete]
  | remove cid => simp [step, setCbSeen_removeClusterEv]
  | setCb =>
      simp only [step, setInitializedCb]
      split <;> simp

/-- `checkAllInitialized` either leaves the state alone or completes. -/
theorem state_checkAllInitialized (h : Helper) :
    (checkAllInitialized h).state = h.state
    ∨ (checkAllInitialized h).state = .allClustersInitialized := by
  unfold checkAllInitialized
  split
  · split
    · exact Or.inr rfl
    · exact Or.inr rfl
  · exact Or.inl rfl

/-- `checkAllInitialized` preserves the helper invariant. -/
theorem inv_checkAllInitialized (h : Helper) (hi : Inv h) :
    Inv (checkAllInitialized h) := by
  unfold checkAllInitialized
  split
  case isTrue hc =>
    obtain ⟨hst, hp, hs⟩ := hc
    have hnall : h.state ≠ .allClustersInitialized := by
      rw [hst]
      intro hcontra
      cases hcontra
    have hfz : h.cbFires = 0 := hi.firesZero hnall
    split
    case isTrue hcb =>
      have hseen : 1 ≤ h.setCbSeen := (hi.cbSetIff hnall).mp hcb
      refine ⟨?_, ?_, ?_, ?_, ?_, ?_, ?_, ?_, ?_⟩
      · intro hne
        exact absurd rfl hne
      · intro hne
        exact absurd rfl hne
      · intro _ _
        show 1 ≤ h.cbFires + 1
        omega
      · show h.cbFires + 1 ≤ h.setCbSeen
        omega
      · intro _
        exact ⟨hp, hs⟩
      · intro i ph hr hrm hd
        exact hi.tracked i ph hr hrm hd
      · rw [scan_append_one, scanStep_cbFired]
        exact hi.scanOk
      · rw [scan_append_one, scanStep_cbFired]
        constructor
        · intro _
          exact Or.inr rfl
        · intro _
          exact hi.scanSeen.mpr (Or.inl hst)
      · intro b hb
        rcases List.mem_append.mp hb with h1 | h2
        · exact hi.flagsTrue b h1
        · simp at h2
    case isFalse hcb =>
      refine ⟨?_, ?_, ?_, ?_, ?_, ?_, ?_, ?_, ?_⟩
      · intro hne
        exact absurd rfl hne
      · intro hne
        exact absurd rfl hne
      · intro _ hseen
        exact absurd ((hi.cbSetIff hnall).mpr hseen) hcb
      · exact hi.firesLe
      · intro _
        exact ⟨hp, hs⟩
      · intro i ph hr hrm hd
        exact hi.tracked i ph hr hrm hd
      · exact hi.scanOk
      · constructor
        · intro _
          exact Or.inr rfl
        · intro _
          exact hi.scanSeen.mpr (Or.inl hst)
      · exact hi.flagsTrue
  case isFalse => exact hi

/-- `removeCore` preserves the helper invariant. -/
theorem inv_removeCore (h : Helper) (cid : Nat) (hi : Inv h) :
    Inv (removeCore h cid) := by
  refine ⟨hi.firesZero, hi.cbSetIff, hi.firesOnce, hi.firesLe, ?_, ?_,
          hi.scanOk, hi.scanSeen, hi.flagsTrue⟩
  · intro hst
    obtain ⟨hp, hs⟩ := hi.pendingNil hst
    simp only [removeCore, hp, hs]
    exact ⟨rfl, rfl⟩
  · intro i ph hr hrm hd
    have hne : i ≠ cid := by
      intro hcontra
      exact hrm (by rw [hcontra]; exact List.mem_cons_self cid h.removedSeen)
    have hrm0 : i ∉ h.removedSeen := fun hmem => hrm (List.mem_cons_of_mem _ hmem)
    obtain ⟨h1, h2⟩ := hi.tracked i ph hr hrm0 hd
    constructor
    · intro hph
      exact mem_ids_filter_ne _ _ _ (h1 hph) hne
    · intro hph
      exact mem_ids_filter_ne _ _ _ (h2 hph) hne

/-- `invokeInitSecondary` keeps the state in the secondary-or-done range. -/
theorem state_invokeInitSecondary (h : Helper) (c : Cluster)
    (hs : h.state = .waitingForSecondaryInitialize
          ∨ h.state = .allClustersInitialized) :
    (invokeInitSecondary h c).state = .waitingForSecondaryInitialize
    ∨ (invokeInitSecondary h c).state = .allClustersInitialized := by
  unfold invokeInitSecondary
  cases c.onInit
  · exact hs
  · rcases state_checkAllInitialized
      (removeCore { h with log := h.log ++ [.initCalled c.id c.phase] } c.id)
      with h1 | h1
    · rw [h1]
      exact hs
    · exact Or.inr h1

/-- `invokeInitSecondary` preserves the helper invariant when the
secondary phase has begun. -/
theorem inv_invokeInitSecondary (h : Helper) (c : Cluster) (hi : Inv h)
    (hs : h.state = .waitingForSecondaryInitialize
          ∨ h.state = .allClustersInitialized) :
    Inv (invokeInitSecondary h c) := by
  have hseen : (scan h.log).1 = true := hi.scanSeen.mpr hs
  have hi1 : Inv { h with log := h.log ++ [.initCalled c.id c.phase] } := by
    refine ⟨hi.firesZero, hi.cbSetIff, hi.firesOnce, hi.firesLe,
            hi.pendingNil, hi.tracked, ?_, ?_, ?_⟩
    · rw [scan_append_one, scanStep_initCalled_of_seen _ _ _ hseen]
      exact hi.scanOk
    · rw [scan_append_one, scanStep_initCalled_of_seen _ _ _ hseen]
      exact hi.scanSeen
    · intro b hb
      rcases List.mem_append.mp hb with h1 | h2
      · exact hi.flagsTrue b h1
      · simp at h2
  unfold invokeInitSecondary
  cases c.onInit
  · exact hi1
  · exact inv_checkAllInitialized _ (inv_removeCore _ _ hi1)

/-- The secondary traversal preserves the invariant and keeps the state in
the secondary-or-done range. -/
theorem inv_goSecondaries :
    ∀ (l : List Cluster) (h : Helper), Inv h →
      (h.state = .waitingForSecondaryInitialize
       ∨ h.state = .allClustersInitialized) →
      Inv (goSecondaries h l)
      ∧ ((goSecondaries h l).state = .waitingForSecondaryInitialize
         ∨ (goSecondaries h l).state = .allClustersInitialized)
  | [], h, hi, hs => ⟨hi, hs⟩
  | c :: rest, h, hi, hs => by
      unfold goSecondaries
      split
      · exact inv_goSecondaries rest _ (inv_invokeInitSecondary h c hi hs)
          (state_invokeInitSecondary h c hs)
      · exact inv_goSecondaries rest h hi hs

/-- `maybeFinishInitialize` preserves the helper invariant. -/
theorem inv_maybeFinishInitialize (h : Helper) (hi : Inv h) :
    Inv (maybeFinishInitialize h) := by
  cases hst : h.state with
  | loading => simp only [maybeFinishInitialize, hst]; exact hi
  | allClustersInitialized => simp only [maybeFinishInitialize, hst]; exact hi
  | waitingForSecondaryInitialize =>
      simp only [maybeFinishInitialize, hst]
      exact inv_checkAllInitialized h hi
  | waitingForStaticInitialize =>
      simp only [maybeFinishInitialize, hst]
      split
      case isTrue hp =>
        have hnall : h.state ≠ .allClustersInitialized := by
          rw [hst]
          intro hcontra
          cases hcontra
        have hi1 : Inv { h with
            state := .waitingForSecondaryInitialize,
            log := h.log ++ [.secondaryPhaseStart h.primaryPending.isEmpty] } := by
          refine ⟨?_, ?_, ?_, hi.firesLe, ?_, hi.tracked, ?_, ?_, ?_⟩
          · intro _
            exact hi.firesZero hnall
          · intro _
            exact hi.cbSetIff hnall
          · intro habs
            cases habs
          · intro habs
            cases habs
          · rw [scan_append_one, scanStep_phaseStart]
            exact hi.scanOk
          · rw [scan_append_one, scanStep_phaseStart]
            constructor
            · intro _
              exact Or.inl rfl
            · intro _
              rfl
          · intro b hb
            rcases List.mem_append.mp hb with h1 | h2
            · exact hi.flagsTrue b h1
            · simp only [List.mem_singleton, LogE.secondaryPhaseStart.injEq] at h2
              rw [h2, hp]
              rfl
        refine inv_checkAllInitialized _ ?_
        have hgo := inv_goSecondaries h.secondaryPending _ hi1 (Or.inl rfl)
        exact hgo.1
      case isFalse => exact hi

/-- `invokeInitPrimary` preserves the helper invariant for primary-phase
clusters. -/
theorem inv_invokeInitPrimary (h : Helper) (c : Cluster) (hi : Inv h)
    (hph : c.phase = .primary) :
    Inv (invokeInitPrimary h c) := by
  have hi1 : Inv { h with log := h.log ++ [.initCalled c.id c.phase] } := by
    refine ⟨hi.firesZero, hi.cbSetIff, hi.firesOnce, hi.firesLe,
            hi.pendingNil, hi.tracked, ?_, ?_, ?_⟩
    · rw [scan_append_one, hph, scanStep_initPrimary]
      exact hi.scanOk
    · rw [scan_append_one, hph, scanStep_initPrimary]
      exact hi.scanSeen
    · intro b hb
      rcases List.mem_append.mp hb with h1 | h2
      · exact hi.flagsTrue b h1
      · simp at h2
  unfold invokeInitPrimary
  cases c.onInit
  · exact hi1
  · exact inv_maybeFinishInitialize _ (inv_removeCore _ _ hi1)

/-- Registering a primary cluster (ghost bookkeeping plus enqueue into the
primary pending set) preserves the invariant outside the final state. -/
theorem inv_registerPrimary (h : Helper) (c : Cluster) (hi : Inv h)
    (hph : c.phase = .primary) (hnall : h.state ≠ .allClustersInitialized) :
    Inv { h with registered := (c.id, c.phase) :: h.registered,
                 primaryPending := h.primaryPending ++ [c] } := by
  refine ⟨hi.firesZero, hi.cbSetIff, hi.firesOnce, hi.firesLe, ?_, ?_,
          hi.scanOk, hi.scanSeen, hi.flagsTrue⟩
  · intro hst
    exact absurd hst hnall
  · intro i ph hr hrm hd
    rcases List.mem_cons.mp hr with h1 | h1
    · rw [Prod.mk.injEq] at h1
      obtain ⟨hid, hph1⟩ := h1
      constructor
      · intro _
        subst hid
        show c.id ∈ ids (h.primaryPending ++ [c])
        simp [ids]
      · intro hphs
        rw [hphs, hph] at hph1
        cases hph1
    · obtain ⟨t1, t2⟩ := hi.tracked i ph h1 hrm hd
      exact ⟨fun hp' => mem_ids_append_left _ _ _ (t1 hp'), t2⟩

/-- Registering a secondary cluster (ghost bookkeeping plus enqueue into
the secondary pending set) preserves the invariant outside the final
state. -/
theorem inv_registerSecondary (h : Helper) (c : Cluster) (hi : Inv h)
    (hph : c.phase = .secondary) (hnall : h.state ≠ .allClustersInitialized) :
    Inv { h with registered := (c.id, c.phase) :: h.registered,
                 secondaryPending := h.secondaryPending ++ [c] } := by
  refine ⟨hi.firesZero, hi.cbSetIff, hi.firesOnce, hi.firesLe, ?_, ?_,
          hi.scanOk, hi.scanSeen, hi.flagsTrue⟩
  · intro hst
    exact absurd hst hnall
  · intro i ph hr hrm hd
    rcases List.mem_cons.mp hr with h1 | h1
    · rw [Prod.mk.injEq] at h1
      obtain ⟨hid, hph1⟩ := h1
      constructor
      · intro hphp
        rw [hphp, hph] at hph1
        cases hph1
      · intro _
        subst hid
        show c.id ∈ ids (h.secondaryPending ++ [c])
        simp [ids]
    · obtain ⟨t1, t2⟩ := hi.tracked i ph h1 hrm hd
      exact ⟨t1, fun hs' => mem_ids_append_left _ _ _ (t2 hs')⟩

/-- `addCluster` preserves the helper invariant. -/
theorem inv_addCluster (h : Helper) (c : Cluster) (hi : Inv h) :
    Inv (addCluster h c) := by
  obtain ⟨st, pp, sp, cb, cf, lg, rg, ds, rs, scs⟩ := h
  obtain ⟨cid, cph, cbeh⟩ := c
  cases st with
  | loading =>
      cases cph with
      | primary =>
          exact inv_invokeInitPrimary _ _
            (inv_registerPrimary _ _ hi rfl (by intro hc; cases hc)) rfl
      | secondary =>
          exact inv_registerSecondary _ _ hi rfl (by intro hc; cases hc)
  | waitingForStaticInitialize =>
      cases cph with
      | primary =>
          exact inv_invokeInitPrimary _ _
            (inv_registerPrimary _ _ hi rfl (by intro hc; cases hc)) rfl
      | secondary =>
          exact inv_registerSecondary _ _ hi rfl (by intro hc; cases hc)
  | waitingForSecondaryInitialize =>
      cases cph with
      | primary =>
          exact inv_registerPrimary _ _ hi rfl (by intro hc; cases hc)
      | secondary =>
          exact inv_invokeInitSecondary _ _
            (inv_registerSecondary _ _ hi rfl (by intro hc; cases hc))
            (Or.inl rfl)
  | allClustersInitialized =>
      cases cph with
      | primary => exact inv_invokeInitPrimary _ _ hi rfl
      | secondary => exact inv_invokeInitSecondary _ _ hi (Or.inr rfl)

/-- `clusterDone` preserves the helper invariant. -/
theorem inv_clusterDone (h : Helper) (cid : Nat) (hi : Inv h) :
    Inv (clusterDone h cid) := by
  refine inv_maybeFinishInitialize _ ?_
  refine ⟨hi.firesZero, hi.cbSetIff, hi.firesOnce, hi.firesLe, ?_, ?_,
          ?_, ?_, ?_⟩
  · intro hst
    obtain ⟨hp, hs⟩ := hi.pendingNil hst
    refine ⟨?_, ?_⟩
    · show h.primaryPending.filter (fun c => c.id ≠ cid) = []
      rw [hp]
      rfl
    · show h.secondaryPending.filter (fun c => c.id ≠ cid) = []
      rw [hs]
      rfl
  · intro i ph hr hrm hd
    have hne : i ≠ cid := by
      intro hcontra
      exact hd (by rw [hcontra]; exact List.mem_cons_self cid h.doneSeen)
    have hd0 : i ∉ h.doneSeen := fun hmem => hd (List.mem_cons_of_mem _ hmem)
    obtain ⟨t1, t2⟩ := hi.tracked i ph hr hrm hd0
    exact ⟨fun hp' => mem_ids_filter_ne _ _ _ (t1 hp') hne,
           fun hs' => mem_ids_filter_ne _ _ _ (t2 hs') hne⟩
  · rw [scan_append_one, scanStep_doneFired]
    exact hi.scanOk
  · rw [scan_append_one, scanStep_doneFired]
    exact hi.scanSeen
  · intro b hb
    rcases List.mem_append.mp hb with h1 | h2
    · exact hi.flagsTrue b h1
    · simp at h2

/-- `removeClusterEv` preserves the helper invariant. -/
theorem inv_removeClusterEv (h : Helper) (cid : Nat) (hi : Inv h) :
    Inv (removeClusterEv h cid) := by
  unfold removeClusterEv
  split
  · exact hi
  · exact inv_maybeFinishInitialize _ (inv_removeCore _ _ hi)

/-- `onStaticLoadComplete` preserves the helper invariant. -/
theorem inv_onStaticLoadComplete (h : Helper) (hi : Inv h) :
    Inv (onStaticLoadComplete h) := by
  unfold onStaticLoadComplete
  split
  case isTrue hst =>
    refine inv_maybeFinishInitialize _ ?_
    have hnall : h.state ≠ .allClustersInitialized := by
      rw [hst]
      intro hc
      cases hc
    refine ⟨?_, ?_, ?_, hi.firesLe, ?_, hi.tracked, hi.scanOk, ?_,
            hi.flagsTrue⟩
    · intro _
      exact hi.firesZero hnall
    · intro _
      exact hi.cbSetIff hnall
    · intro habs
      cases habs
    · intro habs
      cases habs
    · constructor
      · intro hsc
        rcases hi.scanSeen.mp hsc with hc | hc
        · rw [hst] at hc
          cases hc
        · rw [hst] at hc
          cases hc
      · rintro (hc | hc) <;> cases hc
  case isFalse => exact hi

/-- `setInitializedCb` preserves the helper invariant. -/
theorem inv_setInitializedCb (h : Helper) (hi : Inv h) :
    Inv (setInitializedCb h) := by
  simp only [setInitializedCb]
  split
  case isTrue hst =>
    refine ⟨?_, ?_, ?_, ?_, ?_, hi.tracked, ?_, ?_, ?_⟩
    · intro hne
      exact absurd hst hne
    · intro hne
      exact absurd hst hne
    · intro _ _
      show 1 ≤ h.cbFires + 1
      omega
    · show h.cbFires + 1 ≤ h.setCbSeen + 1
      have := hi.firesLe
      omega
    · intro _
      exact hi.pendingNil hst
    · rw [scan_append_one, scanStep_cbFired]
      exact hi.scanOk
    · rw [scan_append_one, scanStep_cbFired]
      exact hi.scanSeen
    · intro b hb
      rcases List.mem_append.mp hb with h1 | h2
      · exact hi.flagsTrue b h1
      · simp at h2
  case isFalse hst =>
    refine ⟨?_, ?_, ?_, ?_, ?_, hi.tracked, hi.scanOk, hi.scanSeen,
            hi.flagsTrue⟩
    · intro hne
      exact hi.firesZero hne
    · intro _
      constructor
      · intro _
        show 1 ≤ h.setCbSeen + 1
        omega
      · intro _
        rfl
    · intro habs _
      exact absurd habs hst
    · show h.cbFires ≤ h.setCbSeen + 1
      have := hi.firesLe
      omega
    · intro habs
      exact absurd habs hst

/-- Every event preserves the helper invariant. -/
theorem inv_step (h : Helper) (e : Ev) (hi : Inv h) : Inv (step h e) := by
  cases e
  · exact inv_addCluster _ _ hi
  · exact inv_clusterDone _ _ hi
  · exact inv_onStaticLoadComplete _ hi
  · exact inv_removeClusterEv _ _ hi
  · exact inv_setInitializedCb _ hi

/-- The freshly constructed helper satisfies the invariant. -/
theorem inv_initHelper : Inv initHelper := by
  refine ⟨?_, ?_, ?_, ?_, ?_, ?_, ?_, ?_, ?_⟩ <;>
    simp [initHelper, scan, ids]

/-- Runs preserve the helper invariant. -/
theorem inv_foldl :
    ∀ (evs : List Ev) (h : Helper), Inv h → Inv (List.foldl step h evs)
  | [], _, hi => hi
  | e :: rest, h, hi => inv_foldl rest (step h e) (inv_step h e hi)

/-- Every run from the initial helper satisfies the invariant. -/
theorem inv_run (evs : List Ev) : Inv (run evs) :=
  inv_foldl evs initHelper inv_initHelper

/-- The final `setInitializedCb` count of a run is the number of `setCb`
events. -/
theorem setCbSeen_foldl :
    ∀ (evs : List Ev) (h : Helper),
      (List.foldl step h evs).setCbSeen = h.setCbSeen + setCbCount evs
  | [], h => by simp [setCbCount]
  | e :: rest, h => by
      rw [List.foldl_cons, setCbSeen_foldl rest, setCbSeen_step]
      by_cases he : e = Ev.setCb
      · simp only [setCbCount, List.filter_cons, he]
        simp
        omega
      · simp only [setCbCount, List.filter_cons, he]
        simp [he]

/-- C1: over every event sequence driving the init helper: with at most
one `setInitializedCb` registration the manager-level initialized callback
is invoked at most once, and with exactly one registration it is invoked
exactly once precisely when the run reaches `AllClustersInitialized`;
whenever it has been invoked, every primary and secondary cluster
registered before completion and not removed has had its done-callback
fire beforehand; no secondary cluster's `initialize()` appears in the log
before the secondary-phase start, and the secondary phase starts only with
the primary pending set empty; and a callback registered after
`AllClustersInitialized` is invoked synchronously by that very
`setInitializedCb` call. -/
theorem initialized_callback_contract (evs : List Ev) :
    (setCbCount evs ≤ 1 → (run evs).cbFires ≤ 1)
    ∧ (setCbCount evs = 1 → (run evs).state = .allClustersInitialized →
        (run evs).cbFires = 1)
    ∧ (1 ≤ (run evs).cbFires →
        ∀ i ph, (i, ph) ∈ (run evs).registered →
          i ∉ (run evs).removedSeen → i ∈ (run evs).doneSeen)
    ∧ (scan (run evs).log).2 = false
    ∧ (∀ b, LogE.secondaryPhaseStart b ∈ (run evs).log → b = true)
    ∧ ((run evs).state = .allClustersInitialized →
        (step (run evs) .setCb).cbFires = (run evs).cbFires + 1) := by
  have hi := inv_run evs
  have hseen : (run evs).setCbSeen = setCbCount evs := by
    have hfold := setCbSeen_foldl evs initHelper
    simpa [run, initHelper] using hfold
  refine ⟨?_, ?_, ?_, hi.scanOk, hi.flagsTrue, ?_⟩
  · intro hc
    have h2 := hi.firesLe
    rw [hseen] at h2
    omega
  · intro hc hst
    have h1 := hi.firesOnce hst (by rw [hseen]; omega)
    have h2 := hi.firesLe
    rw [hseen] at h2
    omega
  · intro hfires i ph hr hrm
    by_contra hd
    have hst : (run evs).state = .allClustersInitialized := by
      by_contra hne
      have := hi.firesZero hne
      omega
    obtain ⟨hp, hs⟩ := hi.pendingNil hst
    obtain ⟨t1, t2⟩ := hi.tracked i ph hr hrm hd
    cases ph
    · have hmem := t1 rfl
      rw [hp] at hmem
      simp [ids] at hmem
    · have hmem := t2 rfl
      rw [hs] at hmem
      simp [ids] at hmem
  · intro hst
    simp [step, setInitializedCb, hst]

/-- Witness for the C1 theorem: the static-SDS scenario (one registered
callback, one primary cluster initialized and done, static load complete)
fires the initialized callback exactly once, after the cluster's
done-callback. -/
theorem initialized_callback_contract_witness :
    (run [.setCb, .add { id := 1, phase := .primary, onInit := .plain },
          .staticLoadComplete, .done 1]).cbFires = 1
    ∧ 1 ∈ (run [.setCb, .add { id := 1, phase := .primary, onInit := .plain },
          .staticLoadComplete, .done 1]).doneSeen :=
  have h := initialized_callback_contract
    [.setCb, .add { id := 1, phase := .primary, onInit := .plain },
     .staticLoadComplete, .done 1]
  ⟨h.2.1 (by decide) (by decide),
   h.2.2.1 (by decide) 1 .primary (by decide) (by decide)⟩

/-- C6: the bug-903 regression scenario — a single secondary cluster whose
`initialize()` synchronously calls `removeCluster(self)` during the
secondary traversal started by `onStaticLoadComplete` — terminates
normally (the traversal re-validates membership, so the removal cannot
invalidate it), reaches `AllClustersInitialized`, and fires the registered
initialized callback exactly once, after the cluster's `initialize()` was
invoked. -/
theorem bug903_remove_during_init :
    (run bug903Run).state = .allClustersInitialized
    ∧ (run bug903Run).cbFires = 1
    ∧ (run bug903Run).log
        = [.secondaryPhaseStart true, .initCalled 7 .secondary, .cbFired] :=
  ⟨rfl, rfl, rfl⟩

end InitHelper
